import Mathlib

/-!
# Calmoy: weighted overall average of school subjects (`server.js`)

A shallow embedding of the three pieces of logic of `server.js`:

* `calculerMoyenneGenerale` (lines 12-30), the weighted average;
* the normalisation `subjects.map(...)` (lines 88-95) and the response
  assembly (lines 97-102);
* the guard of the `POST /moyenne` handler and its calls into the
  external Pronote client (lines 35-108).

A JavaScript number is a rational or `NaN` (`JSNumber`).  Every
arithmetic operation of the program rounds its exact result by a function
`fl`, a parameter of the embedding: `exactArithmetic` keeps the result,
`binary64` rounds it to double precision.  Overflow, the two infinities
and subnormal numbers are outside the model, and so are symbols and big
integers.  The conversion of a string to a number is the built-in
`StringToNumber` of the language; it is not code of the repository and is
taken as a parameter everywhere.
-/

set_option autoImplicit false

namespace Calmoy

/-! ## JavaScript values -/

/-- A JavaScript number: `NaN` or an exact rational. -/
inductive JSNumber where
  | nan
  | finite (q : ℚ)
  deriving DecidableEq

/-- The values a field of a record or of a request body can hold.  An
object or an array is kept as the number its conversion yields (`NaN` for
`{}`, `0` for `[]`), which is all the program asks of it. -/
inductive JSValue where
  | undefined
  | null
  | boolean (b : Bool)
  | number (n : JSNumber)
  | string (s : String)
  | object (valueOf : JSNumber)
  deriving DecidableEq

/-- The abstract operation `ToNumber` behind `Number(v)` and the global
`isNaN(v)`. -/
def ToNumber (StringToNumber : String → JSNumber) : JSValue → JSNumber
  | .undefined => .nan
  | .null => .finite 0
  | .boolean b => .finite (if b then 1 else 0)
  | .number n => n
  | .string s => StringToNumber s
  | .object valueOf => valueOf

/-- The global `isNaN(v)`: `ToNumber v` is `NaN`. -/
def isNaN (StringToNumber : String → JSNumber) (v : JSValue) : Bool :=
  match ToNumber StringToNumber v with
  | .nan => true
  | .finite _ => false

/-- The test `v == null`: true of `null` and `undefined` only. -/
def looseEqNull : JSValue → Bool
  | .undefined => true
  | .null => true
  | _ => false

/-- Truthiness, whose negation is the `!v` of the language: `undefined`,
`null`, `false`, `0`, `NaN` and the empty string are falsy, everything
else is truthy. -/
def truthy : JSValue → Bool
  | .undefined => false
  | .null => false
  | .boolean b => b
  | .number .nan => false
  | .number (.finite q) => decide (q ≠ 0)
  | .string s => decide (s ≠ "")
  | .object _ => true

/-- The operator `a || b`. -/
def logicalOr (a b : JSValue) : JSValue :=
  if truthy a then a else b

/-- The operator `a ?? b`. -/
def nullishCoalesce (a b : JSValue) : JSValue :=
  if looseEqNull a then b else a

/-- Exact arithmetic: the result of an operation is kept as it is. -/
def exactArithmetic : ℚ → ℚ :=
  fun x => x

/-- Rounding to the nearest integer, a half going to the even one. -/
def roundHalfEven (q : ℚ) : ℤ :=
  if q - ⌊q⌋ < 1 / 2 then ⌊q⌋
  else if 1 / 2 < q - ⌊q⌋ then ⌊q⌋ + 1
  else if ⌊q⌋ % 2 = 0 then ⌊q⌋ else ⌊q⌋ + 1

/-- Double precision: the result of an operation is rounded to the nearest
number with a significand of 53 bits, a half-way case going to the even
significand.  The exponent is unbounded: no overflow to an infinity and no
subnormal numbers. -/
def binary64 (x : ℚ) : ℚ :=
  if x = 0 then 0
  else (roundHalfEven (x / 2 ^ (Int.log 2 |x| - 52)) : ℚ) * 2 ^ (Int.log 2 |x| - 52)

/-- Number product `a * b`, the exact product rounded by `fl`; `NaN` is
absorbing. -/
def jsMul (fl : ℚ → ℚ) : JSNumber → JSNumber → JSNumber
  | .finite x, .finite y => .finite (fl (x * y))
  | _, _ => .nan

/-- Number sum `a + b`, the exact sum rounded by `fl`; `NaN` is
absorbing. -/
def jsAdd (fl : ℚ → ℚ) : JSNumber → JSNumber → JSNumber
  | .finite x, .finite y => .finite (fl (x + y))
  | _, _ => .nan

/-- Number quotient `a / b`, the exact quotient rounded by `fl`.  `0 / 0`
is `NaN`; a non-zero number over zero is an infinity, which the model does
not have and renders as `NaN` too (`calculerMoyenneGenerale` never divides
by zero). -/
def jsDiv (fl : ℚ → ℚ) : JSNumber → JSNumber → JSNumber
  | .finite x, .finite y => if y = 0 then .nan else .finite (fl (x / y))
  | _, _ => .nan

/-- The integer `n` of `Number.prototype.toFixed` for two digits and a
non-negative `x`: the integer for which `n / 100 - x` is closest to zero,
the larger one when two are equally close. -/
def toFixedDigits (x : ℚ) : ℤ :=
  ⌊x * 100 + 1 / 2⌋

/-- The composite `Number(x.toFixed(2))`.  `toFixed` turns a negative `x`
into a minus sign and `-x`; from `10^21` on it prints the number itself,
which `Number` reads back unchanged; below, it prints the digits of
`toFixedDigits` with a point before the last two, and `Number` reads that
decimal back as the number nearest to it, the rounding `fl`. -/
def numberToFixed2 (fl : ℚ → ℚ) : JSNumber → JSNumber
  | .nan => .nan
  | .finite x =>
    if 10 ^ 21 ≤ |x| then .finite x
    else if x < 0 then .finite (-fl (((toFixedDigits (-x) : ℤ) : ℚ) / 100))
    else .finite (fl (((toFixedDigits x : ℤ) : ℚ) / 100))

/-! ## The weighted average (lines 12-30) -/

/-- A record `{ name, average, coefficient }`, the shape the normalisation
produces and `calculerMoyenneGenerale` consumes. -/
structure Subject where
  name : JSValue
  average : JSValue
  coefficient : JSValue
  deriving DecidableEq

/-- The two accumulators `totalCoeff` and `total` of
`calculerMoyenneGenerale`. -/
structure Totals where
  totalCoeff : JSNumber
  total : JSNumber
  deriving DecidableEq

/-- The callback of `subjects.forEach` (lines 17-26), as a step on the two
accumulators. -/
def forEachBody (fl : ℚ → ℚ) (StringToNumber : String → JSNumber) (acc : Totals)
    (s : Subject) : Totals :=
  if looseEqNull s.average || isNaN StringToNumber s.average then acc
  else
    let coeff : JSNumber :=
      if !looseEqNull s.coefficient && !isNaN StringToNumber s.coefficient
      then ToNumber StringToNumber s.coefficient else .finite 1
    let avg : JSNumber := ToNumber StringToNumber s.average
    { total := jsAdd fl acc.total (jsMul fl avg coeff)
      totalCoeff := jsAdd fl acc.totalCoeff coeff }

/-- The accumulators after the `forEach` loop, started at `0` and `0`. -/
def accumulate (fl : ℚ → ℚ) (StringToNumber : String → JSNumber) (subjects : List Subject) :
    Totals :=
  subjects.foldl (forEachBody fl StringToNumber) { totalCoeff := .finite 0, total := .finite 0 }

/-- The function `calculerMoyenneGenerale(subjects)`: `null`, here `none`,
when `totalCoeff === 0`, the number `total / totalCoeff` otherwise. -/
def calculerMoyenneGenerale (fl : ℚ → ℚ) (StringToNumber : String → JSNumber)
    (subjects : List Subject) : Option JSNumber :=
  let acc := accumulate fl StringToNumber subjects
  if acc.totalCoeff = .finite 0 then none
  else some (jsDiv fl acc.total acc.totalCoeff)

/-! ### The weighted mean as the specification words it -/

/-- A value is defined and numeric: neither `undefined` nor `null`, and a
number after conversion. -/
def definedNumeric (StringToNumber : String → JSNumber) (v : JSValue) : Bool :=
  match v with
  | .undefined => false
  | .null => false
  | w => decide (ToNumber StringToNumber w ≠ .nan)

/-- The record has a defined, numeric average. -/
def hasNumericAverage (StringToNumber : String → JSNumber) (s : Subject) : Bool :=
  definedNumeric StringToNumber s.average

/-- The rational behind a number, `0` for `NaN`. -/
def JSNumber.toRat : JSNumber → ℚ
  | .nan => 0
  | .finite q => q

/-- The numeric value of a record's average (only used on records that
have one). -/
def averageOf (StringToNumber : String → JSNumber) (s : Subject) : ℚ :=
  (ToNumber StringToNumber s.average).toRat

/-- The weight of a record: its coefficient when that is defined and
numeric, `1` otherwise. -/
def weightOf (StringToNumber : String → JSNumber) (s : Subject) : ℚ :=
  if definedNumeric StringToNumber s.coefficient
  then (ToNumber StringToNumber s.coefficient).toRat else 1

/-- The records that count: those with a defined, numeric average. -/
def included (StringToNumber : String → JSNumber) (subjects : List Subject) : List Subject :=
  subjects.filter (hasNumericAverage StringToNumber)

/-- The sum of `average * coefficient` over the records that count. -/
def weightedSum (StringToNumber : String → JSNumber) (subjects : List Subject) : ℚ :=
  ((included StringToNumber subjects).map
    (fun s => averageOf StringToNumber s * weightOf StringToNumber s)).sum

/-- The sum of the coefficients over the records that count. -/
def coefficientSum (StringToNumber : String → JSNumber) (subjects : List Subject) : ℚ :=
  ((included StringToNumber subjects).map (weightOf StringToNumber)).sum

/-- A number or nothing: a finite number or `undefined`, the way the
specification types the average and the coefficient of a canonical
record. -/
def finiteOrUndefined : JSValue → Bool
  | .undefined => true
  | .number (.finite _) => true
  | _ => false

/-- A non-empty string. -/
def nonEmptyString : JSValue → Bool
  | .string n => decide (n ≠ "")
  | _ => false

/-- A canonical record of the specification: the name is a non-empty
string, the average and the coefficient are each a finite number or
`undefined`. -/
def canonicalRecord (s : Subject) : Bool :=
  nonEmptyString s.name && finiteOrUndefined s.average && finiteOrUndefined s.coefficient

/-! ## Normalisation and response assembly (lines 88-102) -/

/-- A record as the Pronote client hands it over: the nine fields the
normalisation reads, `undefined` for a field the object does not have. -/
structure RawSubject where
  name : JSValue
  intitule : JSValue
  libelle : JSValue
  average : JSValue
  moyenne : JSValue
  moy : JSValue
  coefficient : JSValue
  coeff : JSValue
  coefficientMatiere : JSValue
  deriving DecidableEq

/-- The callback of `subjects.map` (lines 88-95). -/
def normalizeSubject (s : RawSubject) : Subject :=
  { name := logicalOr (logicalOr (logicalOr s.name s.intitule) s.libelle) (.string "Inconnu")
    average := nullishCoalesce (nullishCoalesce (nullishCoalesce s.average s.moyenne) s.moy) .null
    coefficient :=
      nullishCoalesce (nullishCoalesce (nullishCoalesce s.coefficient s.coeff)
        s.coefficientMatiere) .null }

/-- The constant `normalized = subjects.map(...)`. -/
def normalized (subjects : List RawSubject) : List Subject :=
  subjects.map normalizeSubject

/-- A record `{ name, average, coefficient }` read as an input of the
normalisation: an object that has these three fields and no other. -/
def Subject.toRaw (s : Subject) : RawSubject :=
  { name := s.name, intitule := .undefined, libelle := .undefined
    average := s.average, moyenne := .undefined, moy := .undefined
    coefficient := s.coefficient, coeff := .undefined, coefficientMatiere := .undefined }

/-- The first of the candidate values that is neither `undefined` nor
`null`; `null`, the normalisation's mark of no value, when there is
none. -/
def firstDefined (candidates : List JSValue) : JSValue :=
  (candidates.find? (fun v => !looseEqNull v)).getD .null

/-- The object of the successful response:
`{ moyenneGenerale, details }`. -/
structure AverageResult where
  moyenneGenerale : JSValue
  details : List Subject
  deriving DecidableEq

/-- The response assembly of lines 97-102 from the normalised records. -/
def assembleResponse (fl : ℚ → ℚ) (StringToNumber : String → JSNumber)
    (details : List Subject) : AverageResult :=
  let moyenneGenerale := calculerMoyenneGenerale fl StringToNumber details
  { moyenneGenerale :=
      match moyenneGenerale with
      | none => .null
      | some m => .number (numberToFixed2 fl m)
    details := details }

/-! ## The handler of `POST /moyenne` (lines 35-108) -/

/-- The fields the handler takes out of `req.body`; `undefined` for a
field the body does not have. -/
structure RequestBody where
  url : JSValue
  username : JSValue
  password : JSValue
  deriving DecidableEq

/-- A call into the external Pronote client. -/
inductive ExternalCall where
  | construct (url : JSValue)
  | login (username password : JSValue)
  | init (username password : JSValue)
  | authenticate (url username password : JSValue)
  | getSubjects
  | getMarks
  deriving DecidableEq

/-- What `await client.getSubjects()` or `await client.getMarks()` yields:
an array, an object whose `subjects` is an array, or an object whose
`subjects` is falsy.  A value on which reading `subjects` throws counts as
a failed call. -/
inductive Fetched where
  | array (items : List RawSubject)
  | withSubjects (items : List RawSubject)
  | withoutSubjects

/-- What the handler reads off the client once authentication is over:
the field `loggedIn`, the method `getSubjects` if there is one and what
awaiting it gives, `currentPeriod.subjects` if `currentPeriod` is truthy
and that is an array, the method `getMarks` likewise. -/
structure ClientState where
  loggedIn : JSValue
  getSubjects : Option (Except String Fetched)
  currentPeriodSubjects : Option (List RawSubject)
  getMarks : Option (Except String Fetched)

/-- The object `new PronoteAPI({ url })`: its method `login`, its method
`init` (each if it is a function, with the outcome of awaiting it on a
user name and a password), and the state read when neither is called. -/
structure Client where
  login : Option (JSValue → JSValue → Except String ClientState)
  init : Option (JSValue → JSValue → Except String ClientState)
  state : ClientState

/-- The export of `pronote-api-maintained`: the constructor, which may
throw, and the static `authenticate` if it is a function, with the client
awaiting it yields. -/
structure PronoteAPI where
  construct : JSValue → Except String Client
  authenticate : Option (JSValue → JSValue → JSValue → Except String Client)

/-- The body of a response. -/
inductive ResponseBody where
  | error (error : String)
  | internal (error message : String)
  | result (r : AverageResult)
  deriving DecidableEq

/-- A response: `res.status(status).json(body)`; `res.json(body)` has
status 200. -/
structure Response where
  status : Nat
  body : ResponseBody
  deriving DecidableEq

/-- The `catch` branch, lines 104-107. -/
def internalError (message : String) : Response :=
  { status := 500, body := .internal "Erreur interne" message }

/-- Lines 48-61: the authentication, with the calls it makes.  Line 57
awaits `PronoteAPI.authenticate` and drops what it yields: the handler
goes on with the client of line 45. -/
def authentication (api : PronoteAPI) (client : Client) (body : RequestBody) :
    List ExternalCall × Except String ClientState :=
  match client.login with
  | some login => ([.login body.username body.password], login body.username body.password)
  | none =>
    match client.init with
    | some init => ([.init body.username body.password], init body.username body.password)
    | none =>
      match api.authenticate with
      | some authenticate =>
        ([.authenticate body.url body.username body.password],
          (authenticate body.url body.username body.password).map (fun _ => client.state))
      | none =>
        ([], .error ("Adaptation nécessaire : méthode d'authentification inconnue pour " ++
          "pronote-api-maintained. Regarde la README du paquet."))

/-- The expression `Array.isArray(data) ? data : (data.subjects || [])` of line 75. -/
def subjectsOfData : Fetched → List RawSubject
  | .array items => items
  | .withSubjects items => items
  | .withoutSubjects => []

/-- The expression `marks.subjects || []` of line 82; an array has no
`subjects`. -/
def subjectsOfMarks : Fetched → List RawSubject
  | .array _ => []
  | .withSubjects items => items
  | .withoutSubjects => []

/-- Lines 70-85: reading the subjects, with the calls it makes. -/
def fetchSubjects (client : ClientState) : List ExternalCall × Except String (List RawSubject) :=
  match client.getSubjects with
  | some data => ([.getSubjects], data.map subjectsOfData)
  | none =>
    match client.currentPeriodSubjects with
    | some subjects => ([], .ok subjects)
    | none =>
      match client.getMarks with
      | some marks => ([.getMarks], marks.map subjectsOfMarks)
      | none =>
        ([], .error
          "Impossible de lire les matières : adapte le code au SDK pronote que tu utilises.")

/-- The handler of `POST /moyenne`: the external calls it makes, in order,
and the response it sends. -/
def postMoyenne (fl : ℚ → ℚ) (StringToNumber : String → JSNumber) (api : PronoteAPI)
    (body : RequestBody) : List ExternalCall × Response :=
  if !truthy body.url || !truthy body.username || !truthy body.password then
    ([], { status := 400, body := .error "url, username et password nécessaires" })
  else
    match api.construct body.url with
    | .error message => ([.construct body.url], internalError message)
    | .ok client =>
      match authentication api client body with
      | (calls, .error message) => (.construct body.url :: calls, internalError message)
      | (calls, .ok state) =>
        if state.loggedIn = .boolean false then
          (.construct body.url :: calls,
            { status := 401, body := .error "Échec d'authentification" })
        else
          match fetchSubjects state with
          | (fetches, .error message) =>
            (.construct body.url :: (calls ++ fetches), internalError message)
          | (fetches, .ok subjects) =>
            (.construct body.url :: (calls ++ fetches),
              { status := 200
                body := .result (assembleResponse fl StringToNumber (normalized subjects)) })

/-- A field is missing from the body. -/
def missing (v : JSValue) : Bool :=
  decide (v = .undefined)

/-! ## Notions the claims use -/

/-- The number `r` is `x` rounded to two decimal places, halves away from
zero: a whole number of hundredths, at most half a hundredth from `x`, and
the one farther from zero when `x` is exactly half-way. -/
def roundedHalfAwayFromZero (x r : ℚ) : Prop :=
  (∃ n : ℤ, r = (n : ℚ) / 100) ∧ |r - x| ≤ 1 / 200 ∧ (|r - x| = 1 / 200 → |x| < |r|)

/-- The averages of the records that count. -/
def includedAverages (StringToNumber : String → JSNumber) (subjects : List Subject) : List ℚ :=
  (included StringToNumber subjects).map (averageOf StringToNumber)

/-- A finite number, `null` or `undefined`. -/
def finiteOrMissing : JSValue → Bool
  | .undefined => true
  | .null => true
  | .number (.finite _) => true
  | _ => false

/-- The value with `null` in the place of `undefined`. -/
def nullIfUndefined : JSValue → JSValue
  | .undefined => .null
  | v => v

/-! ## Sample inputs -/

/-- A conversion under which no string is a number, for inputs whose
averages and coefficients hold no string. -/
def noNumericString : String → JSNumber :=
  fun _ => .nan

/-- A conversion that sends the empty string to 0, as the language does,
and takes no other string for a number; for inputs whose only string in an
average or a coefficient is the empty one. -/
def emptyStringIsZero : String → JSNumber :=
  fun s => if s = "" then .finite 0 else .nan

/-- Scenario A: Math 15 with coefficient 2, Art 10 with coefficient 1. -/
def scenarioA : List Subject :=
  [ { name := .string "Math", average := .number (.finite 15), coefficient := .number (.finite 2) },
    { name := .string "Art", average := .number (.finite 10), coefficient := .number (.finite 1) } ]

/-- Scenario B: Math without an average and with coefficient 2, Art 10
with coefficient 1. -/
def scenarioB : List Subject :=
  [ { name := .string "Math", average := .null, coefficient := .number (.finite 2) },
    { name := .string "Art", average := .number (.finite 10), coefficient := .number (.finite 1) } ]

/-- One canonical record with average 10 and coefficient 0. -/
def zeroCoefficient : List Subject :=
  [ { name := .string "Math", average := .number (.finite 10), coefficient := .number (.finite 0) } ]

/-- One record whose average is the empty string, with coefficient 3. -/
def onlyEmptyAverage : List Subject :=
  [ { name := .string "Math", average := .string "", coefficient := .number (.finite 3) } ]

/-- A record whose average is the empty string, with coefficient 3, before
Art 10 with coefficient 1. -/
def emptyAverage : List Subject :=
  [ { name := .string "Math", average := .string "", coefficient := .number (.finite 3) },
    { name := .string "Art", average := .number (.finite 10), coefficient := .number (.finite 1) } ]

/-- Math 12 with the coefficient `false`. -/
def falseCoefficient : Subject :=
  { name := .string "Math", average := .number (.finite 12), coefficient := .boolean false }

/-- Math 1 with coefficient 199, Art 2 with coefficient 1: the weighted
mean is 1.005, half-way between 1.00 and 1.01. -/
def exactTie : List Subject :=
  [ { name := .string "Math", average := .number (.finite 1)
      coefficient := .number (.finite 199) },
    { name := .string "Art", average := .number (.finite 2), coefficient := .number (.finite 1) } ]

/-- The record `{ average: 12 }` of scenario E. -/
def scenarioE : Subject :=
  { name := .undefined, average := .number (.finite 12), coefficient := .undefined }

/-- Two canonical records with coefficient 0, as the Pronote client would
hand them over. -/
def zeroCoefficientRaw : List RawSubject :=
  [ { name := .string "Math", intitule := .undefined, libelle := .undefined
      average := .number (.finite 12), moyenne := .undefined, moy := .undefined
      coefficient := .number (.finite 0), coeff := .undefined
      coefficientMatiere := .undefined },
    { name := .string "Art", intitule := .undefined, libelle := .undefined
      average := .number (.finite 8), moyenne := .undefined, moy := .undefined
      coefficient := .number (.finite 0), coeff := .undefined
      coefficientMatiere := .undefined } ]

/-- One canonical record without an average. -/
def missingAverage : List Subject :=
  [ { name := .string "Math", average := .undefined, coefficient := .number (.finite 2) } ]

/-- A client that logs in and hands over `zeroCoefficientRaw`. -/
def sampleState : ClientState :=
  { loggedIn := .boolean true
    getSubjects := some (.ok (.array zeroCoefficientRaw))
    currentPeriodSubjects := none
    getMarks := none }

/-- A library whose constructor succeeds, with a `login` method. -/
def sampleAPI : PronoteAPI :=
  { construct := fun _ =>
      .ok { login := some (fun _ _ => .ok sampleState), init := none, state := sampleState }
    authenticate := none }

/-- A body that has the three fields, the first an empty string. -/
def emptyUrlBody : RequestBody :=
  { url := .string "", username := .string "eleve", password := .string "secret" }

/-- A body with the three fields filled in. -/
def fullBody : RequestBody :=
  { url := .string "https://demo.index-education.net/pronote/", username := .string "eleve"
    password := .string "secret" }

/-- Scenario D: a body without `password`. -/
def scenarioD : RequestBody :=
  { url := .string "https://demo.index-education.net/pronote/", username := .string "eleve"
    password := .undefined }

/-! ## Lemmas -/

section Lemmas

variable (StringToNumber : String → JSNumber)

/-- Exact arithmetic changes no result. -/
@[simp]
theorem exactArithmetic_apply (x : ℚ) : exactArithmetic x = x := rfl

/-- The guard of line 19 is the negation of "defined and numeric". -/
theorem guard_eq_not_definedNumeric (v : JSValue) :
    (looseEqNull v || isNaN StringToNumber v) = !definedNumeric StringToNumber v := by
  cases v with
  | undefined => rfl
  | null => rfl
  | boolean b => simp [looseEqNull, isNaN, definedNumeric, ToNumber]
  | number n => cases n <;> simp [looseEqNull, isNaN, definedNumeric, ToNumber]
  | string s =>
    cases h : StringToNumber s <;> simp [looseEqNull, isNaN, definedNumeric, ToNumber, h]
  | object n => cases n <;> simp [looseEqNull, isNaN, definedNumeric, ToNumber]

/-- A defined, numeric value converts to the finite number `toRat` reads. -/
theorem toNumber_of_definedNumeric (v : JSValue) (h : definedNumeric StringToNumber v = true) :
    ToNumber StringToNumber v = .finite (ToNumber StringToNumber v).toRat := by
  cases hn : ToNumber StringToNumber v with
  | finite q => rfl
  | nan =>
    cases v <;> simp_all [definedNumeric, ToNumber]

/-- The weight the loop gives a record, line 21, is `weightOf`. -/
theorem coeff_eq_weightOf (s : Subject) :
    (if !looseEqNull s.coefficient && !isNaN StringToNumber s.coefficient
      then ToNumber StringToNumber s.coefficient else JSNumber.finite 1)
      = .finite (weightOf StringToNumber s) := by
  have hg := guard_eq_not_definedNumeric StringToNumber s.coefficient
  unfold weightOf
  cases hd : definedNumeric StringToNumber s.coefficient with
  | true =>
    rw [hd] at hg
    have h1 : (!looseEqNull s.coefficient && !isNaN StringToNumber s.coefficient) = true := by
      rw [← Bool.not_or, hg]; rfl
    rw [h1]
    simpa using toNumber_of_definedNumeric StringToNumber s.coefficient hd
  | false =>
    rw [hd] at hg
    have h1 : (!looseEqNull s.coefficient && !isNaN StringToNumber s.coefficient) = false := by
      rw [← Bool.not_or, hg]; rfl
    rw [h1]
    simp

/-- A record without a defined, numeric average leaves both accumulators
as they are, whatever the rounding. -/
theorem forEachBody_skips (fl : ℚ → ℚ) (acc : Totals) (s : Subject)
    (h : hasNumericAverage StringToNumber s = false) :
    forEachBody fl StringToNumber acc s = acc := by
  unfold forEachBody
  rw [guard_eq_not_definedNumeric]
  unfold hasNumericAverage at h
  simp [h]

/-- A record with a defined, numeric average adds the rounded
`average * weight` to `total` and `weight` to `totalCoeff`, each sum
rounded. -/
theorem forEachBody_counts (fl : ℚ → ℚ) (c t : ℚ) (s : Subject)
    (h : hasNumericAverage StringToNumber s = true) :
    forEachBody fl StringToNumber { totalCoeff := .finite c, total := .finite t } s
      = { totalCoeff := .finite (fl (c + weightOf StringToNumber s))
          total := .finite
            (fl (t + fl (averageOf StringToNumber s * weightOf StringToNumber s))) } := by
  unfold forEachBody
  rw [guard_eq_not_definedNumeric]
  unfold hasNumericAverage at h
  simp only [h, Bool.not_true, Bool.false_eq_true, if_false]
  rw [coeff_eq_weightOf, toNumber_of_definedNumeric StringToNumber s.average h]
  simp [jsAdd, jsMul, averageOf, JSNumber.toRat]

/-- Both accumulators are finite numbers after the loop, whatever the
rounding. -/
theorem accumulate_finite (fl : ℚ → ℚ) (subjects : List Subject) :
    ∃ c t : ℚ, accumulate fl StringToNumber subjects
      = { totalCoeff := .finite c, total := .finite t } := by
  have key : ∀ (l : List Subject) (c t : ℚ), ∃ c1 t1 : ℚ,
      l.foldl (forEachBody fl StringToNumber) { totalCoeff := .finite c, total := .finite t }
        = { totalCoeff := .finite c1, total := .finite t1 } := by
    intro l
    induction l with
    | nil => intro c t; exact ⟨c, t, rfl⟩
    | cons s rest ih =>
      intro c t
      rw [List.foldl_cons]
      cases h : hasNumericAverage StringToNumber s with
      | false =>
        rw [forEachBody_skips StringToNumber fl _ s h]
        exact ih c t
      | true =>
        rw [forEachBody_counts StringToNumber fl c t s h]
        exact ih _ _
  exact key subjects 0 0

/-- A record without a defined, numeric average leaves both accumulators
as they are. -/
theorem forEachBody_excluded (acc : Totals) (s : Subject)
    (h : hasNumericAverage StringToNumber s = false) :
    forEachBody exactArithmetic StringToNumber acc s = acc :=
  forEachBody_skips StringToNumber exactArithmetic acc s h

/-- A record with a defined, numeric average adds `average * weight` to
`total` and `weight` to `totalCoeff`. -/
theorem forEachBody_included (c t : ℚ) (s : Subject)
    (h : hasNumericAverage StringToNumber s = true) :
    forEachBody exactArithmetic StringToNumber { totalCoeff := .finite c, total := .finite t } s
      = { totalCoeff := .finite (c + weightOf StringToNumber s)
          total := .finite (t + averageOf StringToNumber s * weightOf StringToNumber s) } := by
  simpa using forEachBody_counts StringToNumber exactArithmetic c t s h

/-- The loop from finite accumulators: both stay finite and grow by the
two sums over the records that count. -/
theorem foldl_forEachBody (subjects : List Subject) (c t : ℚ) :
    subjects.foldl (forEachBody exactArithmetic StringToNumber)
        { totalCoeff := .finite c, total := .finite t }
      = { totalCoeff := .finite (c + coefficientSum StringToNumber subjects)
          total := .finite (t + weightedSum StringToNumber subjects) } := by
  induction subjects generalizing c t with
  | nil => simp [coefficientSum, weightedSum, included]
  | cons s rest ih =>
    rw [List.foldl_cons]
    cases h : hasNumericAverage StringToNumber s with
    | false =>
      rw [forEachBody_excluded StringToNumber _ s h, ih]
      simp [coefficientSum, weightedSum, included, List.filter_cons, h]
    | true =>
      rw [forEachBody_included StringToNumber c t s h, ih]
      simp [coefficientSum, weightedSum, included, List.filter_cons, h, add_assoc]

/-- The accumulators after the loop. -/
theorem accumulate_eq (subjects : List Subject) :
    accumulate exactArithmetic StringToNumber subjects
      = { totalCoeff := .finite (coefficientSum StringToNumber subjects)
          total := .finite (weightedSum StringToNumber subjects) } := by
  unfold accumulate
  rw [foldl_forEachBody]
  simp

/-- The result of `calculerMoyenneGenerale` in terms of the two sums. -/
theorem calculerMoyenneGenerale_eq (subjects : List Subject) :
    calculerMoyenneGenerale exactArithmetic StringToNumber subjects
      = if coefficientSum StringToNumber subjects = 0 then none
        else some (.finite (weightedSum StringToNumber subjects
          / coefficientSum StringToNumber subjects)) := by
  unfold calculerMoyenneGenerale
  rw [accumulate_eq]
  by_cases h : coefficientSum StringToNumber subjects = 0
  · simp [h]
  · simp [h, jsDiv]

/-- An average that is `undefined`, `null` or not a number is exactly one
that is not defined and numeric. -/
theorem not_definedNumeric_iff (StringToNumber : String → JSNumber) (v : JSValue) :
    definedNumeric StringToNumber v = false
      ↔ (v = .undefined ∨ v = .null ∨ isNaN StringToNumber v = true) := by
  cases v with
  | undefined => simp [definedNumeric]
  | null => simp [definedNumeric]
  | boolean b => simp [isNaN, definedNumeric, ToNumber]
  | number n => cases n <;> simp [isNaN, definedNumeric, ToNumber]
  | string s => cases h : StringToNumber s <;> simp [isNaN, definedNumeric, ToNumber, h]
  | object n => cases n <;> simp [isNaN, definedNumeric, ToNumber]

/-- A coefficient that is missing or a positive number gives a positive
weight. -/
theorem weightOf_pos (StringToNumber : String → JSNumber) (s : Subject)
    (h : s.coefficient = .undefined ∨ s.coefficient = .null
      ∨ ∃ q : ℚ, 0 < q ∧ s.coefficient = .number (.finite q)) :
    0 < weightOf StringToNumber s := by
  rcases h with h | h | ⟨q, hq, h⟩
  · simp [weightOf, h, definedNumeric]
  · simp [weightOf, h, definedNumeric]
  · simp [weightOf, h, definedNumeric, ToNumber, JSNumber.toRat, hq]

/-- Positive weights over a non-empty list sum to a positive number. -/
theorem sum_weights_pos {α : Type} (w : α → ℚ) (l : List α) (hne : l ≠ [])
    (hw : ∀ s ∈ l, 0 < w s) : 0 < (l.map w).sum := by
  induction l with
  | nil => exact absurd rfl hne
  | cons s rest ih =>
    rw [List.map_cons, List.sum_cons]
    have h1 : 0 < w s := hw s (List.mem_cons_self _ _)
    by_cases hr : rest = []
    · subst hr; simpa using h1
    · have := ih hr (fun t ht => hw t (List.mem_cons_of_mem _ ht))
      linarith

/-- A lower bound of the values is a lower bound of the weighted sum over
the sum of the weights, for non-negative weights. -/
theorem weighted_sum_ge {α : Type} (a w : α → ℚ) (l : List α) (m : ℚ)
    (hw : ∀ s ∈ l, 0 < w s) (hm : ∀ s ∈ l, m ≤ a s) :
    m * (l.map w).sum ≤ (l.map (fun s => a s * w s)).sum := by
  induction l with
  | nil => simp
  | cons s rest ih =>
    simp only [List.map_cons, List.sum_cons]
    have h1 := ih (fun t ht => hw t (List.mem_cons_of_mem _ ht))
      (fun t ht => hm t (List.mem_cons_of_mem _ ht))
    have h2 : m * w s ≤ a s * w s :=
      mul_le_mul_of_nonneg_right (hm s (List.mem_cons_self _ _))
        (le_of_lt (hw s (List.mem_cons_self _ _)))
    linarith

/-- An upper bound of the values is an upper bound of the weighted sum
over the sum of the weights, for non-negative weights. -/
theorem weighted_sum_le {α : Type} (a w : α → ℚ) (l : List α) (m : ℚ)
    (hw : ∀ s ∈ l, 0 < w s) (hm : ∀ s ∈ l, a s ≤ m) :
    (l.map (fun s => a s * w s)).sum ≤ m * (l.map w).sum := by
  induction l with
  | nil => simp
  | cons s rest ih =>
    simp only [List.map_cons, List.sum_cons]
    have h1 := ih (fun t ht => hw t (List.mem_cons_of_mem _ ht))
      (fun t ht => hm t (List.mem_cons_of_mem _ ht))
    have h2 : a s * w s ≤ m * w s :=
      mul_le_mul_of_nonneg_right (hm s (List.mem_cons_self _ _))
        (le_of_lt (hw s (List.mem_cons_self _ _)))
    linarith

/-- A non-empty list of rationals has a least element. -/
theorem exists_least (l : List ℚ) (hne : l ≠ []) : ∃ lo ∈ l, ∀ a ∈ l, lo ≤ a := by
  induction l with
  | nil => exact absurd rfl hne
  | cons x rest ih =>
    by_cases hr : rest = []
    · subst hr
      exact ⟨x, List.mem_singleton_self _, by simp⟩
    · obtain ⟨lo, hlo, hmin⟩ := ih hr
      by_cases hx : x ≤ lo
      · refine ⟨x, List.mem_cons_self _ _, ?_⟩
        intro a ha
        rcases List.mem_cons.1 ha with rfl | ha
        · exact le_refl _
        · exact le_trans hx (hmin a ha)
      · refine ⟨lo, List.mem_cons_of_mem _ hlo, ?_⟩
        intro a ha
        rcases List.mem_cons.1 ha with rfl | ha
        · exact le_of_lt (lt_of_not_le hx)
        · exact hmin a ha

/-- A non-empty list of rationals has a greatest element. -/
theorem exists_greatest (l : List ℚ) (hne : l ≠ []) : ∃ hi ∈ l, ∀ a ∈ l, a ≤ hi := by
  induction l with
  | nil => exact absurd rfl hne
  | cons x rest ih =>
    by_cases hr : rest = []
    · subst hr
      exact ⟨x, List.mem_singleton_self _, by simp⟩
    · obtain ⟨hi, hhi, hmax⟩ := ih hr
      by_cases hx : hi ≤ x
      · refine ⟨x, List.mem_cons_self _ _, ?_⟩
        intro a ha
        rcases List.mem_cons.1 ha with rfl | ha
        · exact le_refl _
        · exact le_trans (hmax a ha) hx
      · refine ⟨hi, List.mem_cons_of_mem _ hhi, ?_⟩
        intro a ha
        rcases List.mem_cons.1 ha with rfl | ha
        · exact le_of_lt (lt_of_not_le hx)
        · exact hmax a ha

/-- For a non-negative `x`, the digits `toFixed` prints are `x` rounded to
hundredths, halves upwards. -/
theorem toFixedDigits_spec (x : ℚ) (hx : 0 ≤ x) :
    0 ≤ ((toFixedDigits x : ℤ) : ℚ) ∧
    ((toFixedDigits x : ℤ) : ℚ) / 100 - x ≤ 1 / 200 ∧
    -(1 / 200) < ((toFixedDigits x : ℤ) : ℚ) / 100 - x := by
  unfold toFixedDigits
  have h1 := Int.floor_le (x * 100 + 1 / 2)
  have h2 := Int.lt_floor_add_one (x * 100 + 1 / 2)
  have h3 : (0 : ℤ) ≤ ⌊x * 100 + 1 / 2⌋ := Int.floor_nonneg.2 (by linarith)
  have h4 : (0 : ℚ) ≤ ((⌊x * 100 + 1 / 2⌋ : ℤ) : ℚ) := by exact_mod_cast h3
  refine ⟨h4, ?_, ?_⟩ <;> linarith

/-- What `toFixed` prints for two digits, with its sign, is the number
rounded to two decimal places, halves away from zero. -/
theorem toFixed_rounds (x : ℚ) :
    roundedHalfAwayFromZero x
      (if x < 0 then -(((toFixedDigits (-x) : ℤ) : ℚ) / 100)
        else ((toFixedDigits x : ℤ) : ℚ) / 100) := by
  by_cases hx : x < 0
  · obtain ⟨h0, h1, h2⟩ := toFixedDigits_spec (-x) (by linarith)
    rw [if_pos hx]
    refine ⟨⟨-toFixedDigits (-x), by push_cast; ring⟩, ?_, ?_⟩
    · rw [abs_le]; constructor <;> linarith
    · intro ht
      rw [abs_of_neg hx]
      have hr : -(((toFixedDigits (-x) : ℤ) : ℚ) / 100) ≤ 0 := by
        have : (0 : ℚ) ≤ ((toFixedDigits (-x) : ℤ) : ℚ) / 100 := by positivity
        linarith
      rw [abs_of_nonpos hr]
      rcases abs_eq (by norm_num : (0 : ℚ) ≤ 1 / 200) |>.1 ht with h | h
      · linarith
      · linarith
  · have hx0 : 0 ≤ x := le_of_not_lt hx
    obtain ⟨h0, h1, h2⟩ := toFixedDigits_spec x hx0
    rw [if_neg hx]
    refine ⟨⟨toFixedDigits x, rfl⟩, ?_, ?_⟩
    · rw [abs_le]; constructor <;> linarith
    · intro ht
      rw [abs_of_nonneg hx0]
      have hr : (0 : ℚ) ≤ ((toFixedDigits x : ℤ) : ℚ) / 100 := by positivity
      rw [abs_of_nonneg hr]
      rcases abs_eq (by norm_num : (0 : ℚ) ≤ 1 / 200) |>.1 ht with h | h
      · linarith
      · linarith

/-- A rational less than half away from an integer rounds to it. -/
theorem roundHalfEven_eq (q : ℚ) (m : ℤ) (h1 : q - m < 1 / 2) (h2 : (m : ℚ) - q < 1 / 2) :
    roundHalfEven q = m := by
  unfold roundHalfEven
  by_cases hm : (m : ℚ) ≤ q
  · have hf : ⌊q⌋ = m := by
      rw [Int.floor_eq_iff]
      constructor
      · exact hm
      · linarith
    rw [hf, if_pos h1]
  · have hm2 : q < m := lt_of_not_le hm
    have hf : ⌊q⌋ = m - 1 := by
      rw [Int.floor_eq_iff]
      push_cast
      constructor <;> linarith
    rw [hf]
    push_cast
    rw [if_neg (by linarith), if_pos (by linarith)]
    ring

/-- Rounding to the nearest integer commutes with the sign. -/
theorem roundHalfEven_neg (q : ℚ) : roundHalfEven (-q) = -roundHalfEven q := by
  have h1 := Int.floor_le q
  have h2 := Int.lt_floor_add_one q
  by_cases hd : q - ⌊q⌋ = 0
  · have hq : q = ⌊q⌋ := by linarith
    have e1 : roundHalfEven q = ⌊q⌋ := roundHalfEven_eq q ⌊q⌋ (by linarith) (by linarith)
    have e2 : roundHalfEven (-q) = -⌊q⌋ :=
      roundHalfEven_eq (-q) (-⌊q⌋) (by push_cast; linarith) (by push_cast; linarith)
    rw [e1, e2]
  · have hpos : 0 < q - ⌊q⌋ := lt_of_le_of_ne (by linarith) (Ne.symm hd)
    have hf : ⌊-q⌋ = -⌊q⌋ - 1 := by
      rw [Int.floor_eq_iff]
      push_cast
      constructor <;> linarith
    rcases lt_trichotomy (q - ⌊q⌋) (1 / 2) with h | h | h
    · have e1 : roundHalfEven q = ⌊q⌋ := roundHalfEven_eq q ⌊q⌋ (by linarith) (by linarith)
      have e2 : roundHalfEven (-q) = -⌊q⌋ :=
        roundHalfEven_eq (-q) (-⌊q⌋) (by push_cast; linarith) (by push_cast; linarith)
      rw [e1, e2]
    · have e1 : roundHalfEven q = if ⌊q⌋ % 2 = 0 then ⌊q⌋ else ⌊q⌋ + 1 := by
        unfold roundHalfEven
        rw [if_neg (by linarith), if_neg (by linarith)]
      have e2 : roundHalfEven (-q) = if (-⌊q⌋ - 1) % 2 = 0 then -⌊q⌋ - 1 else -⌊q⌋ - 1 + 1 := by
        unfold roundHalfEven
        rw [hf]
        push_cast
        rw [if_neg (by linarith), if_neg (by linarith)]
      rw [e1, e2]
      by_cases hp : ⌊q⌋ % 2 = 0
      · have : ¬ ((-⌊q⌋ - 1) % 2 = 0) := by omega
        rw [if_pos hp, if_neg this]; ring
      · have : (-⌊q⌋ - 1) % 2 = 0 := by omega
        rw [if_neg hp, if_pos this]; ring
    · have e1 : roundHalfEven q = ⌊q⌋ + 1 :=
        roundHalfEven_eq q (⌊q⌋ + 1) (by push_cast; linarith) (by push_cast; linarith)
      have e2 : roundHalfEven (-q) = -(⌊q⌋ + 1) :=
        roundHalfEven_eq (-q) (-(⌊q⌋ + 1)) (by push_cast; linarith) (by push_cast; linarith)
      rw [e1, e2]

/-- Double precision rounding commutes with the sign. -/
theorem binary64_neg (x : ℚ) : binary64 (-x) = -binary64 x := by
  unfold binary64
  by_cases hx : x = 0
  · simp [hx]
  · have hx2 : -x ≠ 0 := neg_ne_zero.2 hx
    rw [if_neg hx, if_neg hx2, abs_neg, neg_div, roundHalfEven_neg]
    push_cast
    ring

/-- The double nearest to a positive `x` with `2^e ≤ x < 2^(e+1)` is
`m * 2^(e-52)` when `x / 2^(e-52)` is less than half away from `m`. -/
theorem binary64_eq (x : ℚ) (e m : ℤ) (hx : 0 < x) (h1 : (2 : ℚ) ^ e ≤ x)
    (h2 : x < (2 : ℚ) ^ (e + 1)) (h3 : x / 2 ^ (e - 52) - m < 1 / 2)
    (h4 : (m : ℚ) - x / 2 ^ (e - 52) < 1 / 2) :
    binary64 x = (m : ℚ) * 2 ^ (e - 52) := by
  have hlog : Int.log 2 |x| = e := by
    rw [abs_of_pos hx]
    have ha : e ≤ Int.log 2 x := by
      rw [← Int.zpow_le_iff_le_log (by norm_num) hx]
      exact_mod_cast h1
    have hb : Int.log 2 x < e + 1 := by
      rw [← Int.lt_zpow_iff_log_lt (by norm_num) hx]
      exact_mod_cast h2
    omega
  unfold binary64
  rw [if_neg (ne_of_gt hx), hlog, roundHalfEven_eq _ m h3 h4]

/-- A natural number below `2^53` is a double. -/
theorem binary64_natCast (n : ℕ) (h : n < 2 ^ 53) : binary64 (n : ℚ) = n := by
  by_cases hn : n = 0
  · subst hn; simp [binary64]
  · have hpos : 0 < n := Nat.pos_of_ne_zero hn
    have hlo : 2 ^ Nat.log 2 n ≤ n := Nat.pow_log_le_self 2 hn
    have hhi : n < 2 ^ (Nat.log 2 n + 1) := Nat.lt_pow_succ_log_self (by norm_num) n
    have he : Nat.log 2 n ≤ 52 := by
      have : Nat.log 2 n < 53 := Nat.log_lt_of_lt_pow hn h
      omega
    obtain ⟨k, hk⟩ : ∃ k : ℕ, Nat.log 2 n + k = 52 := ⟨52 - Nat.log 2 n, by omega⟩
    have hexp : ((Nat.log 2 n : ℕ) : ℤ) - 52 = -(k : ℤ) := by omega
    have hscale : (n : ℚ) / 2 ^ (((Nat.log 2 n : ℕ) : ℤ) - 52) = ((n * 2 ^ k : ℕ) : ℤ) := by
      rw [hexp, zpow_neg, zpow_natCast]
      push_cast
      field_simp
    have := binary64_eq (n : ℚ) (Nat.log 2 n) ((n * 2 ^ k : ℕ) : ℤ) (by exact_mod_cast hpos)
      (by rw [zpow_natCast]; exact_mod_cast hlo)
      (by
        have : ((Nat.log 2 n : ℕ) : ℤ) + 1 = ((Nat.log 2 n + 1 : ℕ) : ℤ) := by push_cast; ring
        rw [this, zpow_natCast]; exact_mod_cast hhi)
      (by rw [hscale]; norm_num) (by rw [hscale]; norm_num)
    rw [this, hexp, zpow_neg, zpow_natCast]
    push_cast
    field_simp

/-- Below `10^21`, `Number(x.toFixed(2))` in double precision is the
double nearest to `x` rounded to two decimal places, halves away from
zero. -/
theorem numberToFixed2_binary64 (x : ℚ) (hx : |x| < 10 ^ 21) :
    ∃ r : ℚ, roundedHalfAwayFromZero x r ∧
      numberToFixed2 binary64 (.finite x) = .finite (binary64 r) := by
  refine ⟨_, toFixed_rounds x, ?_⟩
  have hbig : ¬ ((10 : ℚ) ^ 21 ≤ |x|) := not_le.2 hx
  by_cases hneg : x < 0
  · simp only [numberToFixed2, hbig, hneg, if_true, if_false]
    rw [binary64_neg]
  · simp only [numberToFixed2, hbig, hneg, if_false]

/-- The chain `a ?? b ?? c ?? null` is the first of `a`, `b`, `c` that is
neither `undefined` nor `null`, and `null` when there is none. -/
theorem nullishCoalesce_chain (a b c : JSValue) :
    nullishCoalesce (nullishCoalesce (nullishCoalesce a b) c) .null = firstDefined [a, b, c] := by
  unfold firstDefined nullishCoalesce
  cases ha : looseEqNull a <;> cases hb : looseEqNull b <;> cases hc : looseEqNull c <;>
    simp [List.find?, ha, hb, hc]

/-- Past its guard the handler never answers 400.  It constructs the
client first; when that throws it answers 500 at once, and otherwise it
goes through the authentication next, answering 500 when that fails. -/
theorem postMoyenne_past_guard (fl : ℚ → ℚ) (StringToNumber : String → JSNumber)
    (api : PronoteAPI) (body : RequestBody)
    (h : (!truthy body.url || !truthy body.username || !truthy body.password) = false) :
    (postMoyenne fl StringToNumber api body).2.status ≠ 400 ∧
    (∀ message, api.construct body.url = .error message →
      postMoyenne fl StringToNumber api body
        = ([.construct body.url], internalError message)) ∧
    (∀ client, api.construct body.url = .ok client →
      (∃ rest, (postMoyenne fl StringToNumber api body).1
        = .construct body.url :: ((authentication api client body).1 ++ rest)) ∧
      (∀ message, (authentication api client body).2 = .error message →
        postMoyenne fl StringToNumber api body
          = (.construct body.url :: (authentication api client body).1,
              internalError message))) := by
  unfold postMoyenne
  rw [h]
  simp only [Bool.false_eq_true, if_false]
  cases hc : api.construct body.url with
  | error message =>
    refine ⟨by simp [internalError], ?_, ?_⟩
    · intro m hm
      cases hm
      rfl
    · intro client hcl
      cases hcl
  | ok client =>
    simp only []
    refine ⟨?_, ?_, ?_⟩
    · rcases ha : authentication api client body with ⟨calls, _ | state⟩
      · simp [internalError]
      · simp only []
        by_cases hl : state.loggedIn = .boolean false
        · simp [hl]
        · simp only [hl, if_false]
          rcases hf : fetchSubjects state with ⟨fetches, _ | subjects⟩
          · simp [internalError]
          · simp
    · intro m hm
      cases hm
    · intro client2 hcl
      cases hcl
      rcases ha : authentication api client body with ⟨calls, _ | state⟩
      · refine ⟨⟨[], by simp⟩, ?_⟩
        intro m hm
        cases hm
        rfl
      · simp only []
        refine ⟨?_, ?_⟩
        · by_cases hl : state.loggedIn = .boolean false
          · exact ⟨[], by simp [hl]⟩
          · simp only [hl, if_false]
            rcases hf : fetchSubjects state with ⟨fetches, _ | subjects⟩
            · exact ⟨fetches, rfl⟩
            · exact ⟨fetches, rfl⟩
        · intro m hm
          cases hm

/-- The `moyenneGenerale` of the response is `null` exactly when the
coefficients that count sum to zero. -/
theorem moyenneGenerale_null_iff (StringToNumber : String → JSNumber)
    (details : List Subject) :
    (assembleResponse exactArithmetic StringToNumber details).moyenneGenerale = .null
      ↔ coefficientSum StringToNumber details = 0 := by
  unfold assembleResponse
  simp only [calculerMoyenneGenerale_eq]
  by_cases h : coefficientSum StringToNumber details = 0
  · simp [h]
  · simp [h]

/-- Rounding to two decimal places, halves away from zero, has one
result. -/
theorem roundedHalfAwayFromZero_unique (x r₁ r₂ : ℚ) (h₁ : roundedHalfAwayFromZero x r₁)
    (h₂ : roundedHalfAwayFromZero x r₂) : r₁ = r₂ := by
  have key : ∀ (a b : ℚ), roundedHalfAwayFromZero x a → roundedHalfAwayFromZero x b →
      ¬ a < b := by
    intro a b ha hb hab
    obtain ⟨⟨n, hn⟩, ha1, ha2⟩ := ha
    obtain ⟨⟨m, hm⟩, hb1, hb2⟩ := hb
    have hnm : n < m := by
      have : (n : ℚ) < (m : ℚ) := by rw [hn, hm] at hab; linarith
      exact_mod_cast this
    have hnm1 : (n : ℚ) + 1 ≤ (m : ℚ) := by exact_mod_cast hnm
    have ha3 := abs_le.1 ha1
    have hb3 := abs_le.1 hb1
    have hxa : x - a = 1 / 200 := by rw [hn, hm] at *; linarith
    have hbx : b - x = 1 / 200 := by rw [hn, hm] at *; linarith
    have hta : |x| < |a| := ha2 (by rw [abs_sub_comm, hxa]; norm_num)
    have htb : |x| < |b| := hb2 (by rw [hbx]; norm_num)
    have hx1 : x < 1 / 400 := by
      rcases lt_abs.1 hta with h | h
      · have := le_abs_self x; linarith
      · have := le_abs_self x; linarith
    have hx2 : -(1 / 400) < x := by
      rcases lt_abs.1 htb with h | h
      · have := neg_abs_le x; linarith
      · have := neg_abs_le x; linarith
    have hn1 : (-1 : ℚ) < (n : ℚ) := by rw [hn] at hxa; linarith
    have hn2 : (n : ℚ) < 0 := by rw [hn] at hxa; linarith
    have hn3 : (-1 : ℤ) < n := by exact_mod_cast hn1
    have hn4 : n < 0 := by exact_mod_cast hn2
    omega
  rcases lt_trichotomy r₁ r₂ with h | h | h
  · exact absurd h (key r₁ r₂ h₁ h₂)
  · exact h
  · exact absurd h (key r₂ r₁ h₂ h₁)

end Lemmas

/-! ## The claims on `calculerMoyenneGenerale` -/

/-- C1, as stated, fails: the canonical sequence `zeroCoefficient` has a
record with a defined numeric average, and `calculerMoyenneGenerale`
returns `null` on it, not the quotient of the two sums. -/
theorem C1_counterexample :
    (∀ s ∈ zeroCoefficient, canonicalRecord s = true) ∧
    (∃ s ∈ zeroCoefficient, hasNumericAverage noNumericString s = true) ∧
    calculerMoyenneGenerale exactArithmetic noNumericString zeroCoefficient = none ∧
    calculerMoyenneGenerale exactArithmetic noNumericString zeroCoefficient
      ≠ some (.finite (weightedSum noNumericString zeroCoefficient
          / coefficientSum noNumericString zeroCoefficient)) := by
  refine ⟨by decide, ⟨_, List.mem_singleton_self _, by decide⟩, ?_, ?_⟩ <;>
    simp [calculerMoyenneGenerale_eq, coefficientSum, included, zeroCoefficient,
      hasNumericAverage, definedNumeric, ToNumber, weightOf, JSNumber.toRat]

/-- C1, amended: for every sequence of records, when the coefficients of
the records with a defined numeric average (a missing one counted as 1) do
not sum to zero, which takes at least one such record,
`calculerMoyenneGenerale` returns the sum of `average * coefficient` over
the sum of the coefficients, both over exactly the records with a defined
numeric average; when they sum to zero it returns `null`. -/
theorem C1_weighted_mean (StringToNumber : String → JSNumber) (subjects : List Subject) :
    (coefficientSum StringToNumber subjects ≠ 0 →
      (∃ s ∈ subjects, hasNumericAverage StringToNumber s = true) ∧
      calculerMoyenneGenerale exactArithmetic StringToNumber subjects
        = some (.finite (weightedSum StringToNumber subjects
            / coefficientSum StringToNumber subjects))) ∧
    (coefficientSum StringToNumber subjects = 0 →
      calculerMoyenneGenerale exactArithmetic StringToNumber subjects = none) := by
  rw [calculerMoyenneGenerale_eq]
  constructor
  · intro h
    refine ⟨?_, by simp [h]⟩
    by_contra hnone
    apply h
    have hinc : included StringToNumber subjects = [] := by
      unfold included
      rw [List.filter_eq_nil_iff]
      intro s hs hn
      exact hnone ⟨s, hs, hn⟩
    simp [coefficientSum, hinc]
  · intro h; simp [h]

/-- C1 at scenario A: the coefficients sum to 3 and the result is
`40 / 3`. -/
theorem C1_weighted_mean_witness :
    (∃ s ∈ scenarioA, hasNumericAverage noNumericString s = true) ∧
    coefficientSum noNumericString scenarioA = 3 ∧
    weightedSum noNumericString scenarioA = 40 ∧
    calculerMoyenneGenerale exactArithmetic noNumericString scenarioA
      = some (.finite (weightedSum noNumericString scenarioA
          / coefficientSum noNumericString scenarioA)) := by
  have h1 : ∃ s ∈ scenarioA, hasNumericAverage noNumericString s = true :=
    ⟨_, List.mem_cons_self _ _, by decide⟩
  have h2 : coefficientSum noNumericString scenarioA = 3 := by
    simp [coefficientSum, included, scenarioA, hasNumericAverage, definedNumeric, ToNumber,
      weightOf, JSNumber.toRat]
    norm_num
  have h3 : weightedSum noNumericString scenarioA = 40 := by
    simp [weightedSum, included, scenarioA, hasNumericAverage, definedNumeric, ToNumber,
      weightOf, averageOf, JSNumber.toRat]
    norm_num
  exact ⟨h1, h2, h3,
    ((C1_weighted_mean noNumericString scenarioA).1 (by rw [h2]; norm_num)).2⟩

/-- C2, the code at `onlyEmptyAverage`: the record's average is the empty
string, which is no number, and `isNaN("")` is false because the empty
string converts to 0; the record is counted and
`calculerMoyenneGenerale` returns 0, not `null`. -/
theorem C2_empty_average_returns_zero (StringToNumber : String → JSNumber)
    (h : StringToNumber "" = .finite 0) :
    isNaN StringToNumber (.string "") = false ∧
    accumulate exactArithmetic StringToNumber onlyEmptyAverage
      = { totalCoeff := .finite 3, total := .finite 0 } ∧
    calculerMoyenneGenerale exactArithmetic StringToNumber onlyEmptyAverage
      = some (.finite 0) := by
  have hacc : accumulate exactArithmetic StringToNumber onlyEmptyAverage
      = { totalCoeff := .finite 3, total := .finite 0 } := by
    simp [accumulate, onlyEmptyAverage, forEachBody, looseEqNull, isNaN, ToNumber, h, jsAdd,
      jsMul]
  refine ⟨by simp [isNaN, ToNumber, h], hacc, ?_⟩
  simp [calculerMoyenneGenerale, hacc, jsDiv]

/-- C2 under a conversion that sends the empty string to 0. -/
theorem C2_empty_average_returns_zero_witness :
    emptyStringIsZero "" = .finite 0 ∧
    calculerMoyenneGenerale exactArithmetic emptyStringIsZero onlyEmptyAverage
      = some (.finite 0) :=
  ⟨rfl, (C2_empty_average_returns_zero emptyStringIsZero rfl).2.2⟩

/-- C4, the code at `emptyAverage`: the first record's average is the
empty string, which is no number; the loop counts it as 0 with its
coefficient 3, so `calculerMoyenneGenerale` returns `10 / 4 = 2.5`, where
the sequence without that record gives 10. -/
theorem C4_empty_average_is_counted (StringToNumber : String → JSNumber)
    (h : StringToNumber "" = .finite 0) :
    forEachBody exactArithmetic StringToNumber { totalCoeff := .finite 0, total := .finite 0 }
        { name := .string "Math", average := .string "", coefficient := .number (.finite 3) }
      = { totalCoeff := .finite 3, total := .finite 0 } ∧
    calculerMoyenneGenerale exactArithmetic StringToNumber emptyAverage
      = some (.finite (5 / 2)) ∧
    calculerMoyenneGenerale exactArithmetic StringToNumber
        [ { name := .string "Art", average := .number (.finite 10),
            coefficient := .number (.finite 1) } ]
      = some (.finite 10) := by
  refine ⟨?_, ?_, ?_⟩
  · simp [forEachBody, looseEqNull, isNaN, ToNumber, h, jsAdd, jsMul]
  · have hacc : accumulate exactArithmetic StringToNumber emptyAverage
        = { totalCoeff := .finite 4, total := .finite 10 } := by
      simp [accumulate, emptyAverage, forEachBody, looseEqNull, isNaN, ToNumber, h, jsAdd,
        jsMul]
      norm_num
    simp [calculerMoyenneGenerale, hacc, jsDiv]
    norm_num
  · have hacc : accumulate exactArithmetic StringToNumber
        [ { name := .string "Art", average := .number (.finite 10),
            coefficient := .number (.finite 1) } ]
        = { totalCoeff := .finite 1, total := .finite 10 } := by
      simp [accumulate, forEachBody, looseEqNull, isNaN, ToNumber, jsAdd, jsMul]
    simp [calculerMoyenneGenerale, hacc, jsDiv]

/-- C4 under a conversion that sends the empty string to 0. -/
theorem C4_empty_average_is_counted_witness :
    emptyStringIsZero "" = .finite 0 ∧
    calculerMoyenneGenerale exactArithmetic emptyStringIsZero emptyAverage
      = some (.finite (5 / 2)) :=
  ⟨rfl, (C4_empty_average_is_counted emptyStringIsZero rfl).2.1⟩

/-- C5, as stated, fails: `falseCoefficient` has the average 12 and the
coefficient `false`, which is no number; line 21 converts it to 0 instead
of taking 1, the record adds 0 to both accumulators, and the result is
`null` where coefficient 1 gives 12. -/
theorem C5_counterexample :
    hasNumericAverage noNumericString falseCoefficient = true ∧
    falseCoefficient.coefficient = .boolean false ∧
    forEachBody exactArithmetic noNumericString
        { totalCoeff := .finite 0, total := .finite 0 } falseCoefficient
      = { totalCoeff := .finite 0, total := .finite 0 } ∧
    calculerMoyenneGenerale exactArithmetic noNumericString [falseCoefficient] = none ∧
    calculerMoyenneGenerale exactArithmetic noNumericString
        [{ falseCoefficient with coefficient := .number (.finite 1) }]
      = some (.finite 12) := by
  refine ⟨by decide, rfl, ?_, ?_, ?_⟩
  · simp [forEachBody, falseCoefficient, looseEqNull, isNaN, ToNumber, jsAdd, jsMul]
  · simp [calculerMoyenneGenerale, accumulate, forEachBody, falseCoefficient, looseEqNull,
      isNaN, ToNumber, jsAdd, jsMul]
  · simp [calculerMoyenneGenerale, accumulate, forEachBody, falseCoefficient, looseEqNull,
      isNaN, ToNumber, jsAdd, jsMul, jsDiv]

/-- C5, amended: a record with a defined numeric average whose coefficient
is `undefined`, `null` or converts to `NaN` adds its average to `total`
and `1` to `totalCoeff`; `calculerMoyenneGenerale` then returns the sum of
the other records' `average * coefficient` plus that average, over the sum
of their coefficients plus 1 (`null` when this is zero), which is its
result for the same sequence with the record's coefficient replaced by the
number 1. -/
theorem C5_missing_coefficient_is_one (StringToNumber : String → JSNumber)
    (before after : List Subject) (s : Subject)
    (havg : hasNumericAverage StringToNumber s = true)
    (hcoef : s.coefficient = .undefined ∨ s.coefficient = .null
      ∨ isNaN StringToNumber s.coefficient = true) :
    (∀ acc : Totals, forEachBody exactArithmetic StringToNumber acc s
      = { totalCoeff := jsAdd exactArithmetic acc.totalCoeff (.finite 1)
          total := jsAdd exactArithmetic acc.total (.finite (averageOf StringToNumber s)) }) ∧
    calculerMoyenneGenerale exactArithmetic StringToNumber (before ++ s :: after)
      = (if coefficientSum StringToNumber (before ++ after) + 1 = 0 then none
          else some (.finite
            ((weightedSum StringToNumber (before ++ after) + averageOf StringToNumber s)
              / (coefficientSum StringToNumber (before ++ after) + 1)))) ∧
    calculerMoyenneGenerale exactArithmetic StringToNumber (before ++ s :: after)
      = calculerMoyenneGenerale exactArithmetic StringToNumber
          (before ++ { s with coefficient := .number (.finite 1) } :: after) := by
  have hw : weightOf StringToNumber s = 1 := by
    simp [weightOf, (not_definedNumeric_iff StringToNumber s.coefficient).2 hcoef]
  have hw1 : weightOf StringToNumber { s with coefficient := .number (.finite 1) } = 1 := by
    simp [weightOf, definedNumeric, ToNumber, JSNumber.toRat]
  have ha1 : averageOf StringToNumber { s with coefficient := .number (.finite 1) }
      = averageOf StringToNumber s := rfl
  have hn1 : hasNumericAverage StringToNumber { s with coefficient := .number (.finite 1) }
      = true := havg
  have hc : coefficientSum StringToNumber (before ++ s :: after)
      = coefficientSum StringToNumber (before ++ after) + 1 := by
    simp only [coefficientSum, included, List.filter_append, List.filter_cons, havg, if_true,
      List.map_append, List.map_cons, List.sum_append, List.sum_cons, hw]
    ring
  have hs : weightedSum StringToNumber (before ++ s :: after)
      = weightedSum StringToNumber (before ++ after) + averageOf StringToNumber s := by
    simp only [weightedSum, included, List.filter_append, List.filter_cons, havg, if_true,
      List.map_append, List.map_cons, List.sum_append, List.sum_cons, hw]
    ring
  refine ⟨?_, ?_, ?_⟩
  · intro acc
    unfold forEachBody
    rw [guard_eq_not_definedNumeric, coeff_eq_weightOf, hw]
    unfold hasNumericAverage at havg
    simp only [havg, Bool.not_true, Bool.false_eq_true, if_false]
    rw [toNumber_of_definedNumeric StringToNumber s.average havg]
    simp [jsMul, jsAdd, averageOf, JSNumber.toRat]
  · rw [calculerMoyenneGenerale_eq, hc, hs]
  · rw [calculerMoyenneGenerale_eq, calculerMoyenneGenerale_eq]
    simp only [coefficientSum, weightedSum, included, List.filter_append, List.filter_cons,
      havg, hn1, if_true, List.map_append, List.map_cons, hw, hw1, ha1]

/-- C5 at scenario E, the record `{ average: 12 }`, before the two records
of scenario A: it adds 12 and 1, and the result is `(40 + 12) / (3 + 1)`,
that is 13. -/
theorem C5_missing_coefficient_is_one_witness :
    hasNumericAverage noNumericString scenarioE = true ∧
    forEachBody exactArithmetic noNumericString
        { totalCoeff := .finite 0, total := .finite 0 } scenarioE
      = { totalCoeff := .finite 1, total := .finite 12 } ∧
    calculerMoyenneGenerale exactArithmetic noNumericString ([] ++ scenarioE :: scenarioA)
      = some (.finite 13) := by
  have h := C5_missing_coefficient_is_one noNumericString [] scenarioA scenarioE
    (by decide) (Or.inl rfl)
  refine ⟨by decide, ?_, ?_⟩
  · rw [h.1]
    simp [jsAdd, averageOf, scenarioE, ToNumber, JSNumber.toRat]
  · rw [h.2.1]
    simp [coefficientSum, weightedSum, included, scenarioA, scenarioE, hasNumericAverage,
      definedNumeric, ToNumber, weightOf, averageOf, JSNumber.toRat]
    norm_num

/-! ## The claims on the response assembly -/

/-- C3, as stated, fails: the normalised sequence of `zeroCoefficientRaw`
has records with a defined numeric average (12 and 8, coefficients 0), and
the `moyenneGenerale` of the response is `null`. -/
theorem C3_counterexample :
    (assembleResponse exactArithmetic noNumericString
      (normalized zeroCoefficientRaw)).moyenneGenerale = .null ∧
    (∃ s ∈ normalized zeroCoefficientRaw, hasNumericAverage noNumericString s = true) := by
  refine ⟨?_, ⟨_, List.mem_cons_self _ _, by decide⟩⟩
  simp [assembleResponse, calculerMoyenneGenerale_eq, coefficientSum, included, normalized,
    zeroCoefficientRaw, normalizeSubject, nullishCoalesce, looseEqNull, hasNumericAverage,
    definedNumeric, ToNumber, weightOf, JSNumber.toRat]

/-- C3, amended: the `moyenneGenerale` of the response is `null` if and
only if the coefficients of the records with a defined numeric average (a
missing one counted as 1) sum to zero.  It is therefore `null` whenever no
record has a defined numeric average, and when every such record's
coefficient is missing or a positive number it is `null` only then. -/
theorem C3_null_iff_zero_coefficient_sum (StringToNumber : String → JSNumber)
    (details : List Subject) :
    ((assembleResponse exactArithmetic StringToNumber details).moyenneGenerale = .null
      ↔ coefficientSum StringToNumber details = 0) ∧
    ((∀ s ∈ details, hasNumericAverage StringToNumber s = false) →
      (assembleResponse exactArithmetic StringToNumber details).moyenneGenerale = .null) ∧
    ((∀ s ∈ details, hasNumericAverage StringToNumber s = true →
        (s.coefficient = .undefined ∨ s.coefficient = .null
          ∨ ∃ q : ℚ, 0 < q ∧ s.coefficient = .number (.finite q))) →
      (assembleResponse exactArithmetic StringToNumber details).moyenneGenerale = .null →
      ∀ s ∈ details, hasNumericAverage StringToNumber s = false) := by
  have hiff := moyenneGenerale_null_iff StringToNumber details
  refine ⟨hiff, ?_, ?_⟩
  · intro h
    rw [hiff]
    have hinc : included StringToNumber details = [] := by
      unfold included
      rw [List.filter_eq_nil_iff]
      intro s hs
      simp [h s hs]
    simp [coefficientSum, hinc]
  · intro hpos hnull s hs
    rw [hiff] at hnull
    by_contra hn
    have hn1 : hasNumericAverage StringToNumber s = true := by
      cases hq : hasNumericAverage StringToNumber s with
      | true => rfl
      | false => exact absurd hq hn
    have hmem : s ∈ included StringToNumber details := by
      unfold included
      exact List.mem_filter.2 ⟨hs, hn1⟩
    have hne : included StringToNumber details ≠ [] := List.ne_nil_of_mem hmem
    have := sum_weights_pos (weightOf StringToNumber) (included StringToNumber details) hne
      (by
        intro t ht
        unfold included at ht
        obtain ⟨ht1, ht2⟩ := List.mem_filter.1 ht
        exact weightOf_pos StringToNumber t (hpos t ht1 ht2))
    unfold coefficientSum at hnull
    linarith

/-- C8, as stated, fails in double precision: on `exactTie` the weighted
average is exactly 1.005, which rounded to two decimal places, halves away
from zero, is 1.01; the quotient `total / totalCoeff` the program forms is
the double nearest to 1.005, which lies below it, and the
`moyenneGenerale` of the response is 1. -/
theorem C8_counterexample :
    weightedSum noNumericString exactTie / coefficientSum noNumericString exactTie
      = 201 / 200 ∧
    roundedHalfAwayFromZero (201 / 200) (101 / 100) ∧
    calculerMoyenneGenerale binary64 noNumericString exactTie
      = some (.finite (4526117625507348 / 2 ^ 52)) ∧
    (4526117625507348 / 2 ^ 52 : ℚ) < 201 / 200 ∧
    (assembleResponse binary64 noNumericString exactTie).moyenneGenerale
      = .number (.finite 1) := by
  have e1 : binary64 1 = 1 := by simpa using binary64_natCast 1 (by norm_num)
  have e2 : binary64 2 = 2 := by simpa using binary64_natCast 2 (by norm_num)
  have e199 : binary64 199 = 199 := by simpa using binary64_natCast 199 (by norm_num)
  have e200 : binary64 200 = 200 := by simpa using binary64_natCast 200 (by norm_num)
  have e201 : binary64 201 = 201 := by simpa using binary64_natCast 201 (by norm_num)
  have ediv : binary64 (201 / 200) = 4526117625507348 / 2 ^ 52 := by
    rw [binary64_eq (201 / 200) 0 4526117625507348 (by norm_num) (by norm_num) (by norm_num)
      (by norm_num) (by norm_num)]
    norm_num
  have hacc : accumulate binary64 noNumericString exactTie
      = { totalCoeff := .finite 200, total := .finite 201 } := by
    simp only [accumulate, exactTie, List.foldl, forEachBody, looseEqNull, isNaN, ToNumber,
      jsAdd, jsMul]
    norm_num [e2, e199, e200, e201]
  have hcalc : calculerMoyenneGenerale binary64 noNumericString exactTie
      = some (.finite (4526117625507348 / 2 ^ 52)) := by
    simp only [calculerMoyenneGenerale, hacc, jsDiv]
    norm_num [ediv]
  have hdigits : toFixedDigits (4526117625507348 / 2 ^ 52) = 100 := by
    unfold toFixedDigits
    rw [Int.floor_eq_iff]
    constructor <;> norm_num
  refine ⟨?_, ?_, hcalc, by norm_num, ?_⟩
  · simp [coefficientSum, weightedSum, included, exactTie, hasNumericAverage, definedNumeric,
      ToNumber, weightOf, averageOf, JSNumber.toRat]
    norm_num
  · refine ⟨⟨101, by norm_num⟩, ?_, ?_⟩
    · rw [abs_le]; constructor <;> norm_num
    · intro _
      rw [abs_of_nonneg (by norm_num), abs_of_nonneg (by norm_num)]
      norm_num
  · have hbig : ¬ ((10 : ℚ) ^ 21 ≤ |(4526117625507348 / 2 ^ 52 : ℚ)|) := by
      rw [abs_of_nonneg (by norm_num)]
      norm_num
    have hneg : ¬ ((4526117625507348 / 2 ^ 52 : ℚ) < 0) := by norm_num
    simp only [assembleResponse, hcalc, numberToFixed2, hbig, hneg, if_false, hdigits]
    norm_num [e1]

/-- C8, amended: in double precision the `moyenneGenerale` of the response
is `null` when `calculerMoyenneGenerale` returns `null`; otherwise the
function returned the double quotient `total / totalCoeff`, and the
response holds the double nearest to that quotient rounded to two decimal
places, halves of the quotient away from zero (a quotient of `10^21` or
more is kept as it is); on scenario A it is the double nearest to
13.33. -/
theorem C8_rounds_the_double_quotient (StringToNumber : String → JSNumber)
    (details : List Subject) :
    (calculerMoyenneGenerale binary64 StringToNumber details = none →
      (assembleResponse binary64 StringToNumber details).moyenneGenerale = .null) ∧
    (∀ m : JSNumber, calculerMoyenneGenerale binary64 StringToNumber details = some m →
      m = jsDiv binary64 (accumulate binary64 StringToNumber details).total
            (accumulate binary64 StringToNumber details).totalCoeff ∧
      ∃ x : ℚ, m = .finite x ∧
        (|x| < 10 ^ 21 → ∃ r : ℚ, roundedHalfAwayFromZero x r ∧
          (assembleResponse binary64 StringToNumber details).moyenneGenerale
            = .number (.finite (binary64 r))) ∧
        (10 ^ 21 ≤ |x| →
          (assembleResponse binary64 StringToNumber details).moyenneGenerale
            = .number (.finite x))) ∧
    (assembleResponse binary64 StringToNumber scenarioA).moyenneGenerale
      = .number (.finite (binary64 (1333 / 100))) := by
  refine ⟨?_, ?_, ?_⟩
  · intro h
    simp [assembleResponse, h]
  · intro m hm
    obtain ⟨c, t, hacc⟩ := accumulate_finite StringToNumber binary64 details
    have hm2 := hm
    unfold calculerMoyenneGenerale at hm2
    simp only [hacc] at hm2
    by_cases hc : c = 0
    · subst hc
      simp at hm2
    · have hne : (JSNumber.finite c) ≠ .finite 0 := by
        intro h
        exact hc (JSNumber.finite.inj h)
      simp only [hne, if_false, Option.some.injEq, jsDiv, hc] at hm2
      refine ⟨by rw [hacc, ← hm2]; simp [jsDiv, hc], binary64 (t / c), hm2.symm, ?_, ?_⟩
      · intro hx
        obtain ⟨r, hr, hnum⟩ := numberToFixed2_binary64 (binary64 (t / c)) hx
        exact ⟨r, hr, by simp [assembleResponse, hm, ← hm2, hnum]⟩
      · intro hx
        simp [assembleResponse, hm, ← hm2, numberToFixed2, hx]
  · have e2 : binary64 2 = 2 := by simpa using binary64_natCast 2 (by norm_num)
    have e3 : binary64 3 = 3 := by simpa using binary64_natCast 3 (by norm_num)
    have e10 : binary64 10 = 10 := by simpa using binary64_natCast 10 (by norm_num)
    have e30 : binary64 30 = 30 := by simpa using binary64_natCast 30 (by norm_num)
    have e40 : binary64 40 = 40 := by simpa using binary64_natCast 40 (by norm_num)
    have ediv : binary64 (40 / 3) = 7505999378950827 / 2 ^ 49 := by
      rw [binary64_eq (40 / 3) 3 7505999378950827 (by norm_num) (by norm_num) (by norm_num)
        (by norm_num) (by norm_num)]
      norm_num
    have hacc : accumulate binary64 StringToNumber scenarioA
        = { totalCoeff := .finite 3, total := .finite 40 } := by
      simp only [accumulate, scenarioA, List.foldl, forEachBody, looseEqNull, isNaN, ToNumber,
        jsAdd, jsMul]
      norm_num [e2, e3, e10, e30, e40]
    have hcalc : calculerMoyenneGenerale binary64 StringToNumber scenarioA
        = some (.finite (7505999378950827 / 2 ^ 49)) := by
      simp only [calculerMoyenneGenerale, hacc, jsDiv]
      norm_num [ediv]
    have hdigits : toFixedDigits (7505999378950827 / 2 ^ 49) = 1333 := by
      unfold toFixedDigits
      rw [Int.floor_eq_iff]
      constructor <;> norm_num
    have hbig : ¬ ((10 : ℚ) ^ 21 ≤ |(7505999378950827 / 2 ^ 49 : ℚ)|) := by
      rw [abs_of_nonneg (by norm_num)]
      norm_num
    have hneg : ¬ ((7505999378950827 / 2 ^ 49 : ℚ) < 0) := by norm_num
    simp only [assembleResponse, hcalc, numberToFixed2, hbig, hneg, if_false, hdigits]
    norm_num

/-! ## The bounds of the weighted average -/

/-- C10: when some record has a defined numeric average and every such
record's coefficient is missing or a positive number,
`calculerMoyenneGenerale` returns a finite number that lies between the
least and the greatest of the averages that count. -/
theorem C10_between_min_and_max (StringToNumber : String → JSNumber)
    (subjects : List Subject)
    (hsome : ∃ s ∈ subjects, hasNumericAverage StringToNumber s = true)
    (hpos : ∀ s ∈ subjects, hasNumericAverage StringToNumber s = true →
      (s.coefficient = .undefined ∨ s.coefficient = .null
        ∨ ∃ q : ℚ, 0 < q ∧ s.coefficient = .number (.finite q))) :
    ∃ v lo hi : ℚ,
      calculerMoyenneGenerale exactArithmetic StringToNumber subjects = some (.finite v) ∧
      lo ∈ includedAverages StringToNumber subjects ∧
      hi ∈ includedAverages StringToNumber subjects ∧
      (∀ a ∈ includedAverages StringToNumber subjects, lo ≤ a ∧ a ≤ hi) ∧
      lo ≤ v ∧ v ≤ hi := by
  obtain ⟨s0, hs0, hn0⟩ := hsome
  have hmem : s0 ∈ included StringToNumber subjects := List.mem_filter.2 ⟨hs0, hn0⟩
  have hne : included StringToNumber subjects ≠ [] := List.ne_nil_of_mem hmem
  have hw : ∀ t ∈ included StringToNumber subjects, 0 < weightOf StringToNumber t := by
    intro t ht
    obtain ⟨ht1, ht2⟩ := List.mem_filter.1 ht
    exact weightOf_pos StringToNumber t (hpos t ht1 ht2)
  have hsum : 0 < coefficientSum StringToNumber subjects :=
    sum_weights_pos (weightOf StringToNumber) _ hne hw
  have hane : includedAverages StringToNumber subjects ≠ [] := by
    unfold includedAverages
    simpa using hne
  obtain ⟨lo, hlo, hmin⟩ := exists_least _ hane
  obtain ⟨hi, hhi, hmax⟩ := exists_greatest _ hane
  have hge := weighted_sum_ge (averageOf StringToNumber) (weightOf StringToNumber)
    (included StringToNumber subjects) lo hw
    (fun t ht => hmin _ (List.mem_map_of_mem _ ht))
  have hle := weighted_sum_le (averageOf StringToNumber) (weightOf StringToNumber)
    (included StringToNumber subjects) hi hw
    (fun t ht => hmax _ (List.mem_map_of_mem _ ht))
  refine ⟨weightedSum StringToNumber subjects / coefficientSum StringToNumber subjects,
    lo, hi, ?_, hlo, hhi, fun a ha => ⟨hmin a ha, hmax a ha⟩, ?_, ?_⟩
  · rw [calculerMoyenneGenerale_eq]
    simp [ne_of_gt hsum]
  · rw [le_div_iff₀ hsum]
    exact hge
  · rw [div_le_iff₀ hsum]
    exact hle

/-- C10 at scenario A followed by scenario E: the averages 15, 10 and 12
with weights 2, 1 and 1. -/
theorem C10_between_min_and_max_witness :
    ∃ v lo hi : ℚ,
      calculerMoyenneGenerale exactArithmetic noNumericString (scenarioA ++ [scenarioE])
        = some (.finite v) ∧
      lo ∈ includedAverages noNumericString (scenarioA ++ [scenarioE]) ∧
      hi ∈ includedAverages noNumericString (scenarioA ++ [scenarioE]) ∧
      (∀ a ∈ includedAverages noNumericString (scenarioA ++ [scenarioE]), lo ≤ a ∧ a ≤ hi) ∧
      lo ≤ v ∧ v ≤ hi :=
  C10_between_min_and_max noNumericString (scenarioA ++ [scenarioE])
    ⟨scenarioE, by simp, by decide⟩
    (by
      intro s hs _
      simp only [scenarioA, List.cons_append, List.nil_append, List.mem_cons,
        List.mem_singleton, List.not_mem_nil, or_false] at hs
      rcases hs with rfl | rfl | rfl
      · exact Or.inr (Or.inr ⟨2, by norm_num, rfl⟩)
      · exact Or.inr (Or.inr ⟨1, by norm_num, rfl⟩)
      · exact Or.inl rfl)

/-! ## The claims on the normalisation -/

/-- C6: the normalisation returns a sequence of the same length in the
same order; at every index the average is the first of `average`,
`moyenne`, `moy` that is neither `undefined` nor `null`, and `null` (no
value) when there is none; the coefficient is resolved likewise over
`coefficient`, `coeff`, `coefficientMatiere`; an `average` of 0 is taken
whatever `moyenne` and `moy` hold. -/
theorem C6_normalizer_resolves_fields (subjects : List RawSubject) :
    (normalized subjects).length = subjects.length ∧
    (∀ (i : Nat) (s : RawSubject), subjects[i]? = some s →
      ∃ t : Subject, (normalized subjects)[i]? = some t ∧
        t.average = firstDefined [s.average, s.moyenne, s.moy] ∧
        t.coefficient = firstDefined [s.coefficient, s.coeff, s.coefficientMatiere]) ∧
    (∀ s : RawSubject, s.average = .number (.finite 0) →
      (normalizeSubject s).average = .number (.finite 0)) := by
  refine ⟨by simp [normalized], ?_, ?_⟩
  · intro i s hs
    refine ⟨normalizeSubject s, by simp [normalized, hs], ?_, ?_⟩
    · exact nullishCoalesce_chain _ _ _
    · exact nullishCoalesce_chain _ _ _
  · intro s hs
    simp [normalizeSubject, hs, nullishCoalesce, looseEqNull]

/-- C7, as stated, fails: `missingAverage` is a canonical sequence (name
"Math", average `undefined`, coefficient 2) and the normalisation returns
a different sequence, with the average `null`. -/
theorem C7_counterexample :
    (∀ s ∈ missingAverage, canonicalRecord s = true) ∧
    normalized (missingAverage.map Subject.toRaw) ≠ missingAverage ∧
    normalized (missingAverage.map Subject.toRaw)
      = [ { name := .string "Math", average := .null,
            coefficient := .number (.finite 2) } ] := by
  refine ⟨by decide, by decide, by decide⟩

/-- C7, amended: on a sequence of records whose name is a non-empty string
and whose average and coefficient are each a finite number, `null` or
`undefined`, the normalisation returns the sequence with `null` in the
place of every `undefined` average or coefficient; it returns the same
sequence when the missing averages and coefficients are `null`. -/
theorem C7_normalizer_fixes_canonical (subjects : List Subject)
    (h : ∀ s ∈ subjects, nonEmptyString s.name = true ∧ finiteOrMissing s.average = true
      ∧ finiteOrMissing s.coefficient = true) :
    normalized (subjects.map Subject.toRaw)
      = subjects.map (fun s =>
          { s with average := nullIfUndefined s.average
                   coefficient := nullIfUndefined s.coefficient }) ∧
    ((∀ s ∈ subjects, s.average ≠ .undefined ∧ s.coefficient ≠ .undefined) →
      normalized (subjects.map Subject.toRaw) = subjects) := by
  have hone : ∀ s : Subject, nonEmptyString s.name = true →
      normalizeSubject s.toRaw
        = { s with average := nullIfUndefined s.average
                   coefficient := nullIfUndefined s.coefficient } := by
    intro s hname
    obtain ⟨name, average, coefficient⟩ := s
    have hn : logicalOr (logicalOr (logicalOr name .undefined) .undefined) (.string "Inconnu")
        = name := by
      cases name <;> simp_all [nonEmptyString, logicalOr, truthy]
    have hv : ∀ v : JSValue,
        nullishCoalesce (nullishCoalesce (nullishCoalesce v .undefined) .undefined) .null
          = nullIfUndefined v := by
      intro v
      cases v <;> simp [nullishCoalesce, looseEqNull, nullIfUndefined]
    simp only [normalizeSubject, Subject.toRaw, hn, hv]
  have hmap : normalized (subjects.map Subject.toRaw)
      = subjects.map (fun s =>
          { s with average := nullIfUndefined s.average
                   coefficient := nullIfUndefined s.coefficient }) := by
    unfold normalized
    rw [List.map_map]
    apply List.map_congr_left
    intro s hs
    exact hone s (h s hs).1
  refine ⟨hmap, ?_⟩
  intro hdef
  rw [hmap]
  conv_rhs => rw [← List.map_id subjects]
  apply List.map_congr_left
  intro s hs
  obtain ⟨name, average, coefficient⟩ := s
  have h1 := (hdef _ hs).1
  have h2 := (hdef _ hs).2
  simp only at h1 h2
  have e1 : nullIfUndefined average = average := by
    cases average <;> simp_all [nullIfUndefined]
  have e2 : nullIfUndefined coefficient = coefficient := by
    cases coefficient <;> simp_all [nullIfUndefined]
  simp [e1, e2]

/-- C7 at scenario B, whose missing average is `null`: the normalisation
returns scenario B. -/
theorem C7_normalizer_fixes_canonical_witness :
    (∀ s ∈ scenarioB, nonEmptyString s.name = true ∧ finiteOrMissing s.average = true
      ∧ finiteOrMissing s.coefficient = true) ∧
    normalized (scenarioB.map Subject.toRaw) = scenarioB :=
  ⟨by decide,
    (C7_normalizer_fixes_canonical scenarioB (by decide)).2 (by decide)⟩

/-! ## The claim on the guard of the handler -/

/-- A full run: with the three fields filled in and a client that logs in,
the handler constructs the client, logs in, fetches the subjects and
answers 200; the two coefficients are 0, so `moyenneGenerale` is `null`. -/
theorem postMoyenne_sample_run :
    postMoyenne exactArithmetic noNumericString sampleAPI fullBody
      = ([.construct fullBody.url, .login fullBody.username fullBody.password, .getSubjects],
          { status := 200
            body := .result { moyenneGenerale := .null
                              details := normalized zeroCoefficientRaw } }) := by
  have h := (moyenneGenerale_null_iff noNumericString
    (normalized zeroCoefficientRaw)).2 (by
      simp [coefficientSum, included, normalized, zeroCoefficientRaw, normalizeSubject,
        nullishCoalesce, looseEqNull, hasNumericAverage, definedNumeric, ToNumber, weightOf,
        JSNumber.toRat])
  simp [postMoyenne, fullBody, sampleAPI, truthy, authentication, sampleState, fetchSubjects,
    Except.map, subjectsOfData, assembleResponse] at h ⊢
  exact h

/-- C9, as stated, fails: `emptyUrlBody` has the three fields, none is
missing, and the handler answers 400 without proceeding to the
authentication. -/
theorem C9_counterexample :
    missing emptyUrlBody.url = false ∧ missing emptyUrlBody.username = false ∧
    missing emptyUrlBody.password = false ∧
    postMoyenne exactArithmetic noNumericString sampleAPI emptyUrlBody
      = ([], { status := 400, body := .error "url, username et password nécessaires" }) := by
  refine ⟨by decide, by decide, by decide, ?_⟩
  simp [postMoyenne, emptyUrlBody, truthy]


/-- C9, amended: the handler answers 400 exactly when at least one of
`url`, `username`, `password` is falsy (missing, `null`, an empty string,
`0`, `NaN` or `false`), and then makes no external call; it does so in
particular when one of the three is missing, as in scenario D.  When all
three are truthy it proceeds to the external authentication: it constructs
the client from `url` and, the construction succeeding, next calls the
first of `client.login(username, password)`,
`client.init({ username, password })` and
`PronoteAPI.authenticate(url, username, password)` that is a function; it
answers 500 with no further call when the construction throws or none of
the three is a function. -/
theorem C9_guard_on_falsy_fields (fl : ℚ → ℚ) (StringToNumber : String → JSNumber)
    (api : PronoteAPI) (body : RequestBody) :
    ((postMoyenne fl StringToNumber api body).2.status = 400
      ↔ (truthy body.url = false ∨ truthy body.username = false
          ∨ truthy body.password = false)) ∧
    ((postMoyenne fl StringToNumber api body).2.status = 400 →
      (postMoyenne fl StringToNumber api body).1 = []) ∧
    ((missing body.url = true ∨ missing body.username = true
        ∨ missing body.password = true) →
      postMoyenne fl StringToNumber api body
        = ([], { status := 400, body := .error "url, username et password nécessaires" })) ∧
    ((truthy body.url = true ∧ truthy body.username = true ∧ truthy body.password = true) →
      (∀ message, api.construct body.url = .error message →
        postMoyenne fl StringToNumber api body
          = ([.construct body.url], internalError message)) ∧
      (∀ client, api.construct body.url = .ok client →
        (∀ login, client.login = some login →
          ∃ rest, (postMoyenne fl StringToNumber api body).1
            = .construct body.url :: .login body.username body.password :: rest) ∧
        (∀ init, client.login = none → client.init = some init →
          ∃ rest, (postMoyenne fl StringToNumber api body).1
            = .construct body.url :: .init body.username body.password :: rest) ∧
        (∀ authenticate, client.login = none → client.init = none →
          api.authenticate = some authenticate →
          ∃ rest, (postMoyenne fl StringToNumber api body).1
            = .construct body.url
                :: .authenticate body.url body.username body.password :: rest) ∧
        (client.login = none → client.init = none → api.authenticate = none →
          postMoyenne fl StringToNumber api body
            = ([.construct body.url],
                internalError ("Adaptation nécessaire : méthode d'authentification inconnue pour "
                  ++ "pronote-api-maintained. Regarde la README du paquet."))))) ∧
    postMoyenne fl StringToNumber api scenarioD
      = ([], { status := 400, body := .error "url, username et password nécessaires" }) := by
  have hscenario : postMoyenne fl StringToNumber api scenarioD
      = ([], { status := 400, body := .error "url, username et password nécessaires" }) := by
    simp [postMoyenne, scenarioD, truthy]
  have hguard : (!truthy body.url || !truthy body.username || !truthy body.password) = true →
      postMoyenne fl StringToNumber api body
        = ([], { status := 400, body := .error "url, username et password nécessaires" }) := by
    intro hg
    unfold postMoyenne
    rw [hg]
    simp
  have hfalsy : (truthy body.url = false ∨ truthy body.username = false
      ∨ truthy body.password = false)
      ↔ (!truthy body.url || !truthy body.username || !truthy body.password) = true := by
    simp [or_assoc]
  have h400 : (postMoyenne fl StringToNumber api body).2.status = 400
      ↔ (!truthy body.url || !truthy body.username || !truthy body.password) = true := by
    constructor
    · intro hs
      by_contra hg
      have hg2 : (!truthy body.url || !truthy body.username || !truthy body.password)
          = false := by
        simpa using hg
      exact (postMoyenne_past_guard fl StringToNumber api body hg2).1 hs
    · intro hg
      rw [hguard hg]
  refine ⟨h400.trans hfalsy.symm, ?_, ?_, ?_, hscenario⟩
  · intro hs
    rw [hguard (h400.1 hs)]
  · intro hm
    apply hguard
    rw [← hfalsy]
    rcases hm with hm | hm | hm
    · left
      have : body.url = .undefined := by simpa [missing] using hm
      rw [this]; rfl
    · right; left
      have : body.username = .undefined := by simpa [missing] using hm
      rw [this]; rfl
    · right; right
      have : body.password = .undefined := by simpa [missing] using hm
      rw [this]; rfl
  · intro ht
    obtain ⟨_, herr, hok⟩ := postMoyenne_past_guard fl StringToNumber api body
      (by simp [ht.1, ht.2.1, ht.2.2])
    refine ⟨herr, ?_⟩
    intro client hclient
    obtain ⟨⟨rest, hrest⟩, hfail⟩ := hok client hclient
    refine ⟨?_, ?_, ?_, ?_⟩
    · intro login hlogin
      refine ⟨rest, ?_⟩
      rw [hrest]
      simp [authentication, hlogin]
    · intro init hlogin hinit
      refine ⟨rest, ?_⟩
      rw [hrest]
      simp [authentication, hlogin, hinit]
    · intro authenticate hlogin hinit hauth
      refine ⟨rest, ?_⟩
      rw [hrest]
      simp [authentication, hlogin, hinit, hauth]
    · intro hlogin hinit hauth
      have := hfail _ (by simp [authentication, hlogin, hinit, hauth]; rfl)
      rw [this]
      simp [authentication, hlogin, hinit, hauth]

end Calmoy
